import Mathlib

/-!
Shallow embedding of the control code in the LSTM-Temperature-Control notebook
(`src/LSTM.ipynb`): the PID controller with anti-reset windup, the LSTM
controller wrapper (scaling, opaque model inference, clamping), the setpoint
schedule generation, the training window construction, and the Part A / Part B
control loops.  Machine floats are modelled as exact rationals, and the
trained network together with the emulated plant and the clock are opaque
function parameters.
-/

namespace TempControl

/-- Result record of one `pid` call: the notebook returns `[op, P, I, D]`. -/
structure PIDResult where
  op : ℚ
  P : ℚ
  I : ℚ
  D : ℚ
deriving Repr, DecidableEq

/-- The derivative-suppression threshold `1e-8` from `if dt>=1e-8:`. -/
def dtEps : ℚ := 1 / 100000000

/-- `pid(sp,pv,pv_last,ierr,dt)` from the notebook, parametrised by the
module-level tuning globals `Kc`, `tauI`, `tauD` (set to 6.0, 75.0, 0.0 in
the notebook).  `op0 = 0`, `ophi = 100`, `oplo = 0`. -/
def pid (Kc tauI tauD sp pv pv_last ierr dt : ℚ) : PIDResult :=
  let KP := Kc
  let KI := Kc / tauI
  let KD := Kc * tauD
  let op0 : ℚ := 0
  let ophi : ℚ := 100
  let oplo : ℚ := 0
  let error := sp - pv
  let ierr1 := ierr + KI * error * dt
  let dpv := if dt ≥ dtEps then (pv - pv_last) / dt else 0
  let P := KP * error
  let I := ierr1
  let D := -KD * dpv
  let op := op0 + P + I + D
  if op < oplo ∨ op > ophi then
    { op := max oplo (min ophi op), P := P, I := I - KI * error * dt, D := D }
  else
    { op := op, P := P, I := I, D := D }

/-- The raw (pre-clamp) PID output `op = op0 + P + I + D` computed inside
`pid` before the anti-reset-windup branch. -/
def pidRaw (Kc tauI tauD sp pv pv_last ierr dt : ℚ) : ℚ :=
  let KI := Kc / tauI
  let KD := Kc * tauD
  let error := sp - pv
  let ierr1 := ierr + KI * error * dt
  let dpv := if dt ≥ dtEps then (pv - pv_last) / dt else 0
  0 + Kc * error + ierr1 + (-KD * dpv)

/-- A `MinMaxScaler` fitted to a single feature column, kept as the fitted
data minimum and maximum; `transform` and `inverse_transform` with the
default `(0,1)` feature range. -/
structure Scaler where
  lo : ℚ
  hi : ℚ
deriving Repr, DecidableEq

/-- `MinMaxScaler.transform` on one value. -/
def Scaler.transform (s : Scaler) (x : ℚ) : ℚ := (x - s.lo) / (s.hi - s.lo)

/-- `MinMaxScaler.inverse_transform` on one value. -/
def Scaler.inverseTransform (s : Scaler) (z : ℚ) : ℚ := z * (s.hi - s.lo) + s.lo

/-- The raw feature rows built inside `lstm`:
`err = Tsp_m - T1_m; X = np.vstack((Tsp_m,err)).T`. -/
def lstmFeatures (T1_m Tsp_m : List ℚ) : List (ℚ × ℚ) :=
  let err := List.zipWith (fun a b => a - b) Tsp_m T1_m
  List.zip Tsp_m err

/-- `lstm(T1_m, Tsp_m)` from the Part A cell of the notebook: compute
`err = Tsp_m - T1_m`, stack `(Tsp, err)` pairs, scale with the frozen input
scalers, run the opaque trained model (`model.predict`), inverse-transform
the scalar with the output scaler, and clip the result to `[0,100]`.
The trained network is the external collaborator `model`.  The function
performs no readiness or length check on its window arguments. -/
def lstm (model : List (ℚ × ℚ) → ℚ) (sxT sxE sy : Scaler)
    (T1_m Tsp_m : List ℚ) : ℚ :=
  let X := lstmFeatures T1_m Tsp_m
  let Xs := X.map (fun p => (sxT.transform p.1, sxE.transform p.2))
  let Q1c_s := model Xs
  let Q1c := sy.inverseTransform Q1c_s
  min 100 (max 0 Q1c)

/-- Python slice `xs[lo:hi]` for nonnegative in-range bounds with
`lo ≤ hi`, as used by `T1[i-window:i]` and `Xs[i-window:i]`. -/
def pySlice {α : Type} (xs : List α) (lo hi : ℕ) : List α :=
  (xs.drop lo).take (hi - lo)

/-- The training feature rows: `df['err'] = df['Tsp'] - df['T1']` followed
by selecting the Tsp and err columns as `X`. -/
def featuresOf (tsp t1 : List ℚ) : List (ℚ × ℚ) :=
  List.zip tsp (List.zipWith (fun a b => a - b) tsp t1)

/-- The training window construction
`for i in range(window,len(df)): X_lstm.append(Xs[i-window:i])`, stated on
feature rows. -/
def windowsLstm (feats : List (ℚ × ℚ)) (window : ℕ) : List (List (ℚ × ℚ)) :=
  ((List.range feats.length).drop window).map (fun i => pySlice feats (i - window) i)

/-- The training labels `y_lstm.append(ys[i])` over the same index range. -/
def labelsLstm (qs : List ℚ) (window : ℕ) : List ℚ :=
  ((List.range qs.length).drop window).map (fun i => qs.getD i 0)

/-- The raw feature window the Part A / Part B loops hand to `lstm` at tick
`i`: `T1_m = T1[i-window:i]; Tsp_m = Tsp[i-window:i]`, then `lstm` builds
the `(Tsp, err)` rows from them. -/
def ctrlFeatures (tsp t1 : List ℚ) (window i : ℕ) : List (ℚ × ℚ) :=
  lstmFeatures (pySlice t1 (i - window) i) (pySlice tsp (i - window) i)

/-- One numpy slice assignment `arr[start:stop] = v` walked from head
position `idx`: indices `start ≤ j < stop` that exist in the array are
overwritten, assignment past the end of the array truncates silently. -/
def fillFrom (v : ℚ) : ℕ → ℕ → ℕ → List ℚ → List ℚ
  | _, _, _, [] => []
  | idx, start, stop, x :: xs =>
    (if start ≤ idx ∧ idx < stop then v else x) :: fillFrom v (idx + 1) start stop xs

/-- `arr[start:stop] = v` on a whole array. -/
def fillSlice (arr : List ℚ) (start stop : ℕ) (v : ℚ) : List ℚ :=
  fillFrom v 0 start stop arr

/-- The setpoint-variation loop
`while end <= loops: start = end; end += randint(240,600); Tsp[start:end] = randint(30,70)`.
`draws k` supplies the `(hold, level)` pair of random draws consumed by
iteration `k`.  `fuel` bounds the iteration count; the caller passes `loops + 1`,
which the loop can only exhaust if every drawn hold were 0 (the notebook
draws holds from `[240, 600]`). -/
def scheduleLoop (draws : ℕ → ℕ × ℚ) (loops : ℕ) :
    ℕ → ℕ → ℕ → List ℚ → List ℚ
  | 0, _, _, arr => arr
  | fuel + 1, k, end_, arr =>
    if end_ ≤ loops then
      scheduleLoop draws loops fuel (k + 1) (end_ + (draws k).1)
        (fillSlice arr end_ (end_ + (draws k).1) (draws k).2)
    else arr

/-- Setpoint schedule generation: `Tsp1 = np.ones(loops) * lab.T1` (the
constant base temperature) followed by the variation loop, whose first
segment starts at `end = init` (the initial quiet period; 30 in the data
collection cell, `window + 15 = 30` in the Part A/B cell). -/
def genSchedule (draws : ℕ → ℕ × ℚ) (loops : ℕ) (base : ℚ) (init : ℕ) : List ℚ :=
  scheduleLoop draws loops (loops + 1) 0 init (List.replicate loops base)

/-- The `pv_last` argument `T1[i-1]` passed to `pid` by the loops, with Python
indexing semantics: at `i = 0` the index `-1` wraps around to the last
array slot. -/
def pyGetPrev (arr : List ℚ) (i : ℕ) : ℚ :=
  if i = 0 then arr.getD (arr.length - 1) 0 else arr.getD (i - 1) 0

/-- The `np.zeros(loops)` array `T1` after the first tick has stored the
first measurement: `T1[0] = firstMeas`. -/
def firstTickT1 (loops : ℕ) (firstMeas : ℚ) : List ℚ :=
  (List.replicate loops (0 : ℚ)).set 0 firstMeas

/-- Loop state of the Part A comparison run: the pre-allocated
trajectory arrays `T1`, `Qpid`, `Qlstm`, the sequence of heater powers
written to the plant by `lab.Q1(...)`, and the PID controller state. -/
structure SimStateA where
  T1 : List ℚ
  Qpid : List ℚ
  Qlstm : List ℚ
  heater : List ℚ
  ierr : ℚ
  prev_time : ℚ
deriving Repr, DecidableEq

/-- One tick of the Part A loop: read `t` from the clock, compute `dt`,
read the plant temperature into `T1[i]`, run `pid` (with the notebook
gains `Kc=6, tauI=75, tauD=0`) to get `Qpid[i]` and the new `ierr`, write
the heater with `lab.Q1(Qpid[i])`, and only then, when `i >= window`, run
the LSTM on `T1[i-window:i]`, `Tsp[i-window:i]` and record it in
`Qlstm[i]` (for comparison only — it is never written to the plant).  The
plant is an opaque causal collaborator mapping the tick index and the
heater powers written so far to the measured temperature. -/
def partAStep (plant : ℕ → List ℚ → ℚ) (clock : ℕ → ℚ)
    (model : List (ℚ × ℚ) → ℚ) (sxT sxE sy : Scaler)
    (Tsp : List ℚ) (window : ℕ) (i : ℕ) (s : SimStateA) : SimStateA :=
  let t := clock i
  let dt := t - s.prev_time
  let T1' := s.T1.set i (plant i s.heater)
  let r := pid 6 75 0 (Tsp.getD i 0) (T1'.getD i 0) (pyGetPrev T1' i) s.ierr dt
  let Qpid' := s.Qpid.set i r.op
  let heater' := s.heater ++ [Qpid'.getD i 0]
  let Qlstm' :=
    if i ≥ window then
      s.Qlstm.set i (lstm model sxT sxE sy (pySlice T1' (i - window) i)
        (pySlice Tsp (i - window) i))
    else s.Qlstm
  { T1 := T1', Qpid := Qpid', Qlstm := Qlstm', heater := heater',
    ierr := r.I, prev_time := t }

/-- The Part A run after `n` ticks, starting from the freshly zeroed
arrays (`np.zeros(loops)`), `ierr = 0.0` and `prev_time = 0`. -/
def runPartA (plant : ℕ → List ℚ → ℚ) (clock : ℕ → ℚ)
    (model : List (ℚ × ℚ) → ℚ) (sxT sxE sy : Scaler)
    (Tsp : List ℚ) (window loops : ℕ) : ℕ → SimStateA
  | 0 =>
    { T1 := List.replicate loops 0, Qpid := List.replicate loops 0,
      Qlstm := List.replicate loops 0, heater := [], ierr := 0, prev_time := 0 }
  | n + 1 =>
    partAStep plant clock model sxT sxE sy Tsp window n
      (runPartA plant clock model sxT sxE sy Tsp window loops n)

/-- Loop state of the Part B run (LSTM-only): `T1` and `Qlstm` are the
arrays carried over from Part A (`Qlstm` indices below `window` were never
written there and still hold their `np.zeros` value). -/
structure SimStateB where
  T1 : List ℚ
  Qlstm : List ℚ
  heater : List ℚ
  prev_time : ℚ
deriving Repr, DecidableEq

/-- One tick of the Part B loop: read the clock and the plant, when
`i >= window` run the LSTM and store `Qlstm[i]`, then write the heater
with `lab.Q1(Qlstm[i])` — for `i < window` this writes the value already
stored in `Qlstm[i]`. -/
def partBStep (plant : ℕ → List ℚ → ℚ) (clock : ℕ → ℚ)
    (model : List (ℚ × ℚ) → ℚ) (sxT sxE sy : Scaler)
    (Tsp : List ℚ) (window : ℕ) (i : ℕ) (s : SimStateB) : SimStateB :=
  let t := clock i
  let T1' := s.T1.set i (plant i s.heater)
  let Qlstm' :=
    if i ≥ window then
      s.Qlstm.set i (lstm model sxT sxE sy (pySlice T1' (i - window) i)
        (pySlice Tsp (i - window) i))
    else s.Qlstm
  let heater' := s.heater ++ [Qlstm'.getD i 0]
  { T1 := T1', Qlstm := Qlstm', heater := heater', prev_time := t }

/-- The Part B run after `n` ticks, starting from the carried-over arrays
`t0` (old `T1`) and `q0` (old `Qlstm`). -/
def runPartB (plant : ℕ → List ℚ → ℚ) (clock : ℕ → ℚ)
    (model : List (ℚ × ℚ) → ℚ) (sxT sxE sy : Scaler)
    (Tsp : List ℚ) (window : ℕ) (t0 q0 : List ℚ) : ℕ → SimStateB
  | 0 => { T1 := t0, Qlstm := q0, heater := [], prev_time := 0 }
  | n + 1 =>
    partBStep plant clock model sxT sxE sy Tsp window n
      (runPartB plant clock model sxT sxE sy Tsp window t0 q0 n)

end TempControl

namespace TempControl

lemma pid_eq_branch (Kc tauI tauD sp pv pv_last ierr dt : ℚ) :
    pid Kc tauI tauD sp pv pv_last ierr dt =
      if pidRaw Kc tauI tauD sp pv pv_last ierr dt < 0 ∨
         pidRaw Kc tauI tauD sp pv pv_last ierr dt > 100 then
        { op := max 0 (min 100 (pidRaw Kc tauI tauD sp pv pv_last ierr dt)),
          P := Kc * (sp - pv),
          I := ierr + (Kc / tauI) * (sp - pv) * dt - (Kc / tauI) * (sp - pv) * dt,
          D := -(Kc * tauD) *
            (if dt ≥ dtEps then (pv - pv_last) / dt else 0) }
      else
        { op := pidRaw Kc tauI tauD sp pv pv_last ierr dt,
          P := Kc * (sp - pv),
          I := ierr + (Kc / tauI) * (sp - pv) * dt,
          D := -(Kc * tauD) *
            (if dt ≥ dtEps then (pv - pv_last) / dt else 0) } := by
  simp only [pid, pidRaw]

/-- C1: when the raw PID output falls outside `[0,100]`, the integral term
returned after clamping equals the integral value passed in: the increment
`(Kc/tauI)*error*dt` just added is subtracted back out. -/
theorem pid_antiwindup_no_growth (Kc tauI tauD sp pv pv_last ierr dt : ℚ)
    (h : pidRaw Kc tauI tauD sp pv pv_last ierr dt < 0 ∨
         pidRaw Kc tauI tauD sp pv pv_last ierr dt > 100) :
    (pid Kc tauI tauD sp pv pv_last ierr dt).I = ierr := by
  rw [pid_eq_branch, if_pos h]
  ring

/-- Witness for C1 at `Kc=6, tauI=75, tauD=0, sp=100, pv=0, pv_last=0,
ierr=0, dt=1`: the raw output `600 + 8 = 608` saturates and the returned
integral term equals the incoming `ierr = 0`. -/
theorem pid_antiwindup_no_growth_witness :
    (pidRaw 6 75 0 100 0 0 0 1 < 0 ∨ pidRaw 6 75 0 100 0 0 0 1 > 100) ∧
    (pid 6 75 0 100 0 0 0 1).I = 0 := by
  refine ⟨?_, pid_antiwindup_no_growth 6 75 0 100 0 0 0 1 ?_⟩ <;>
    · right
      norm_num [pidRaw, dtEps]

/-- C5: the PID recurrence in the unsaturated case.  Under `dt ≥ 1e-8` and a
raw output inside `[0,100]`, the call returns exactly
`error = sp - pv`, `I = ierr + (Kc/tauI)*error*dt`,
`D = -(Kc*tauD)*(pv - pv_last)/dt` and `op = bias + Kc*error + I + D`
with bias `op0 = 0`. -/
theorem pid_unsaturated_formulas (Kc tauI tauD sp pv pv_last ierr dt : ℚ)
    (hdt : dt ≥ dtEps)
    (hlo : 0 ≤ 0 + Kc * (sp - pv) + (ierr + (Kc / tauI) * (sp - pv) * dt) +
      (-(Kc * tauD) * (pv - pv_last) / dt))
    (hhi : 0 + Kc * (sp - pv) + (ierr + (Kc / tauI) * (sp - pv) * dt) +
      (-(Kc * tauD) * (pv - pv_last) / dt) ≤ 100) :
    pid Kc tauI tauD sp pv pv_last ierr dt =
      { op := 0 + Kc * (sp - pv) + (ierr + (Kc / tauI) * (sp - pv) * dt) +
          (-(Kc * tauD) * (pv - pv_last) / dt),
        P := Kc * (sp - pv),
        I := ierr + (Kc / tauI) * (sp - pv) * dt,
        D := -(Kc * tauD) * (pv - pv_last) / dt } := by
  have hraw : pidRaw Kc tauI tauD sp pv pv_last ierr dt =
      0 + Kc * (sp - pv) + (ierr + (Kc / tauI) * (sp - pv) * dt) +
        (-(Kc * tauD) * (pv - pv_last) / dt) := by
    simp only [pidRaw, if_pos hdt]
    ring
  rw [pid_eq_branch, if_neg, if_pos hdt, hraw]
  · simp only [PIDResult.mk.injEq, true_and, and_true, eq_self_iff_true]
    ring
  · rw [hraw]
    push_neg
    exact ⟨hlo, hhi⟩

/-- Witness for C5 at `Kc=6, tauI=75, tauD=0, sp=26, pv=25, pv_last=25,
ierr=0, dt=1`: raw output `6 + 2/25 = 152/25` lies in `[0,100]` and is
returned unclamped together with the stated P, I, D terms. -/
theorem pid_unsaturated_formulas_witness :
    (1 : ℚ) ≥ dtEps ∧
    pid 6 75 0 26 25 25 0 1 =
      { op := 0 + 6 * (26 - 25) + (0 + (6 / 75) * (26 - 25) * 1) +
          (-(6 * 0) * (25 - 25) / 1),
        P := 6 * (26 - 25),
        I := 0 + (6 / 75) * (26 - 25) * 1,
        D := -(6 * 0) * (25 - 25) / 1 } := by
  refine ⟨by norm_num [dtEps], pid_unsaturated_formulas 6 75 0 26 25 25 0 1 ?_ ?_ ?_⟩ <;>
    norm_num [dtEps]

/-- C6: whenever `dt` is below the `1e-8` threshold the derivative term is
set to zero instead of dividing by `dt`, and the call still returns a
(total) result. -/
theorem pid_small_dt_derivative_zero (Kc tauI tauD sp pv pv_last ierr dt : ℚ)
    (hdt : dt < dtEps) :
    (pid Kc tauI tauD sp pv pv_last ierr dt).D = 0 := by
  have hnot : ¬ dt ≥ dtEps := not_le.mpr hdt
  rw [pid_eq_branch]
  split <;> simp [if_neg hnot]

/-- Witness for C6 at `dt = 0 < 1e-8`: the derivative term returned is 0. -/
theorem pid_small_dt_derivative_zero_witness :
    (0 : ℚ) < dtEps ∧ (pid 6 75 2 50 40 10 3 0).D = 0 := by
  exact ⟨by norm_num [dtEps], pid_small_dt_derivative_zero 6 75 2 50 40 10 3 0
    (by norm_num [dtEps])⟩

lemma lstm_mem_bounds (model : List (ℚ × ℚ) → ℚ) (sxT sxE sy : Scaler)
    (T1_m Tsp_m : List ℚ) :
    0 ≤ lstm model sxT sxE sy T1_m Tsp_m ∧
      lstm model sxT sxE sy T1_m Tsp_m ≤ 100 := by
  constructor
  · exact le_min (by norm_num) (le_max_left 0 _)
  · exact min_le_left 100 _

/-- C2: for every input whatsoever, the action returned by the PID
controller and the action returned by the sequence-model controller are
both in `[0,100]`. -/
theorem actions_always_in_bounds (Kc tauI tauD sp pv pv_last ierr dt : ℚ)
    (model : List (ℚ × ℚ) → ℚ) (sxT sxE sy : Scaler) (T1_m Tsp_m : List ℚ) :
    (0 ≤ (pid Kc tauI tauD sp pv pv_last ierr dt).op ∧
      (pid Kc tauI tauD sp pv pv_last ierr dt).op ≤ 100) ∧
    (0 ≤ lstm model sxT sxE sy T1_m Tsp_m ∧
      lstm model sxT sxE sy T1_m Tsp_m ≤ 100) := by
  constructor
  · rw [pid_eq_branch]
    split
    · constructor
      · exact le_max_left 0 _
      · exact max_le (by norm_num) (min_le_left 100 _)
    · rename_i hcond
      push_neg at hcond
      exact ⟨hcond.1, hcond.2⟩
  · exact lstm_mem_bounds model sxT sxE sy T1_m Tsp_m

/-- C3 counterexample: the sequence-model controller performs no readiness
check.  Invoked with a window of only 3 samples (fewer than `window = 15`),
with a concrete model and scalers, it raises no readiness failure and
returns the numeric result `0`. -/
theorem lstm_short_window_returns_numeric :
    ([(50 : ℚ), 50, 50]).length < 15 ∧
    lstm (fun _ => 0) ⟨0, 1⟩ ⟨0, 1⟩ ⟨0, 100⟩ [20, 20, 20] [50, 50, 50] = 0 := by
  constructor
  · decide
  · norm_num [lstm, lstmFeatures, Scaler.transform, Scaler.inverseTransform]

/-- C3 amended: invoking the sequence-model controller with fewer than `W`
accumulated samples never fails: the controller performs no readiness check
and always returns a numeric result clamped to `[0,100]` (pre-readiness
invocation is instead prevented by the `i >= window` guard in the
control loops). -/
theorem lstm_short_window_total (model : List (ℚ × ℚ) → ℚ)
    (sxT sxE sy : Scaler) (T1_m Tsp_m : List ℚ)
    (_hshort : Tsp_m.length < 15) :
    0 ≤ lstm model sxT sxE sy T1_m Tsp_m ∧
      lstm model sxT sxE sy T1_m Tsp_m ≤ 100 :=
  lstm_mem_bounds model sxT sxE sy T1_m Tsp_m

/-- Witness for the amended C3 on a 2-sample window. -/
theorem lstm_short_window_total_witness :
    ([(30 : ℚ), 40]).length < 15 ∧
    (0 ≤ lstm (fun _ => 7) ⟨20, 60⟩ ⟨-10, 30⟩ ⟨0, 100⟩ [25, 26] [30, 40] ∧
      lstm (fun _ => 7) ⟨20, 60⟩ ⟨-10, 30⟩ ⟨0, 100⟩ [25, 26] [30, 40] ≤ 100) :=
  ⟨by decide,
    lstm_short_window_total (fun _ => 7) ⟨20, 60⟩ ⟨-10, 30⟩ ⟨0, 100⟩
      [25, 26] [30, 40] (by decide)⟩

lemma pySlice_zipWith {α β γ : Type} (f : α → β → γ) (a : List α) (b : List β)
    (lo hi : ℕ) :
    pySlice (List.zipWith f a b) lo hi =
      List.zipWith f (pySlice a lo hi) (pySlice b lo hi) := by
  simp [pySlice, List.drop_zipWith, List.take_zipWith]

lemma pySlice_zip {α β : Type} (a : List α) (b : List β) (lo hi : ℕ) :
    pySlice (List.zip a b) lo hi =
      List.zip (pySlice a lo hi) (pySlice b lo hi) := by
  simp only [List.zip_eq_zipWith]
  exact pySlice_zipWith Prod.mk a b lo hi

lemma ctrlFeatures_eq_slice (tsp t1 : List ℚ) (window i : ℕ) :
    ctrlFeatures tsp t1 window i = pySlice (featuresOf tsp t1) (i - window) i := by
  simp only [ctrlFeatures, lstmFeatures, featuresOf, pySlice_zip, pySlice_zipWith]

lemma featuresOf_length (tsp t1 : List ℚ) :
    (featuresOf tsp t1).length = min tsp.length t1.length := by
  simp only [featuresOf, List.length_zip, List.length_zipWith]
  omega

/-- C4: at every tick `i` with `window ≤ i` inside the run, the feature
window handed to the sequence model is exactly the most recent `window`
(setpoint, error) rows in chronological order (row `j` is sample
`i - window + j`), and it coincides with the training construction: it is
the training window at index `i - window`, which covers samples
`i - window .. i - 1` and is labelled by output `i`. -/
theorem window_alignment (tsp t1 qs : List ℚ) (window i : ℕ)
    (hw : window ≤ i) (ht : i < tsp.length) (h1 : i < t1.length)
    (hq : i < qs.length) :
    (ctrlFeatures tsp t1 window i).length = window ∧
    (∀ j, j < window →
      (ctrlFeatures tsp t1 window i)[j]? = (featuresOf tsp t1)[i - window + j]?) ∧
    (windowsLstm (featuresOf tsp t1) window)[i - window]? =
      some (ctrlFeatures tsp t1 window i) ∧
    (labelsLstm qs window)[i - window]? = some (qs.getD i 0) := by
  have hlen : (featuresOf tsp t1).length = min tsp.length t1.length :=
    featuresOf_length tsp t1
  have hidx : window + (i - window) = i := by omega
  refine ⟨?_, ?_, ?_, ?_⟩
  · rw [ctrlFeatures_eq_slice]
    simp only [pySlice, List.length_take, List.length_drop, hlen]
    omega
  · intro j hj
    rw [ctrlFeatures_eq_slice]
    simp only [pySlice, List.getElem?_take, List.getElem?_drop]
    rw [if_pos (by omega)]
  · have hi_lt : window + (i - window) < (featuresOf tsp t1).length := by
      rw [hlen]; omega
    rw [windowsLstm, List.getElem?_map, List.getElem?_drop,
      List.getElem?_range hi_lt, hidx]
    simp [ctrlFeatures_eq_slice]
  · have hi_lt : window + (i - window) < qs.length := by omega
    rw [labelsLstm, List.getElem?_map, List.getElem?_drop,
      List.getElem?_range hi_lt, hidx]
    rfl

/-- Witness for C4 at `window = 2`, `i = 2` over a 3-sample run:
the control window equals the training window at index 0, holds the two
rows for samples 0 and 1, and the training label at index 0 is `qs[2]`. -/
theorem window_alignment_witness :
    (2 ≤ 2 ∧ 2 < 3) ∧
    (windowsLstm (featuresOf [21, 50, 60] [21, 22, 23]) 2)[0]? =
      some (ctrlFeatures [21, 50, 60] [21, 22, 23] 2 2) :=
  ⟨⟨by decide, by decide⟩,
    (window_alignment [21, 50, 60] [21, 22, 23] [(5 : ℚ), 6, 7] 2 2
      (by decide) (by decide) (by decide) (by decide)).2.2.1⟩

lemma fillFrom_length (v : ℚ) :
    ∀ (idx start stop : ℕ) (xs : List ℚ),
      (fillFrom v idx start stop xs).length = xs.length
  | _, _, _, [] => rfl
  | idx, start, stop, _ :: xs => by
    simp [fillFrom, fillFrom_length v (idx + 1) start stop xs]

lemma fillFrom_getElem_lt (v : ℚ) :
    ∀ (idx start stop : ℕ) (xs : List ℚ) (j : ℕ), idx + j < start →
      (fillFrom v idx start stop xs)[j]? = xs[j]?
  | _, _, _, [], _, _ => rfl
  | idx, start, stop, x :: xs, 0, h => by
    have : ¬ (start ≤ idx ∧ idx < stop) := fun hc => by omega
    simp [fillFrom, if_neg this]
  | idx, start, stop, x :: xs, j + 1, h => by
    simp only [fillFrom, List.getElem?_cons_succ]
    exact fillFrom_getElem_lt v (idx + 1) start stop xs j (by omega)

lemma scheduleLoop_length (draws : ℕ → ℕ × ℚ) (loops : ℕ) :
    ∀ (fuel k end_ : ℕ) (arr : List ℚ),
      (scheduleLoop draws loops fuel k end_ arr).length = arr.length
  | 0, _, _, _ => rfl
  | fuel + 1, k, end_, arr => by
    rw [scheduleLoop]
    split
    · rw [scheduleLoop_length draws loops fuel (k + 1) (end_ + (draws k).1)]
      simp [fillSlice, fillFrom_length]
    · rfl

lemma scheduleLoop_getElem_lt (draws : ℕ → ℕ × ℚ) (loops : ℕ) :
    ∀ (fuel k end_ : ℕ) (arr : List ℚ) (i : ℕ), i < end_ →
      (scheduleLoop draws loops fuel k end_ arr)[i]? = arr[i]?
  | 0, _, _, _, _, _ => rfl
  | fuel + 1, k, end_, arr, i, h => by
    rw [scheduleLoop]
    split
    · rw [scheduleLoop_getElem_lt draws loops fuel (k + 1) (end_ + (draws k).1)
        (fillSlice arr end_ (end_ + (draws k).1) (draws k).2) i (by omega)]
      exact fillFrom_getElem_lt (draws k).2 0 end_ (end_ + (draws k).1) arr i (by omega)
    · rfl

/-- C7: for every requested run length, every quiet-period length and every
sequence of random `(hold, level)` draws, the generated setpoint schedule
has length exactly `loops`, the initial quiet period (indices below `init`)
holds the constant base temperature, and no entry exists past the run
length — a final segment whose sampled hold overruns the run is truncated
by the slice-assignment semantics. -/
theorem schedule_coverage (draws : ℕ → ℕ × ℚ) (loops : ℕ) (base : ℚ)
    (init : ℕ) :
    (genSchedule draws loops base init).length = loops ∧
    (∀ i, i < init → i < loops →
      (genSchedule draws loops base init)[i]? = some base) ∧
    (∀ i, loops ≤ i → (genSchedule draws loops base init)[i]? = none) := by
  refine ⟨?_, ?_, ?_⟩
  · rw [genSchedule, scheduleLoop_length, List.length_replicate]
  · intro i hin hil
    rw [genSchedule, scheduleLoop_getElem_lt draws loops (loops + 1) 0 init _ i hin]
    exact List.getElem?_replicate_of_lt hil
  · intro i hi
    apply List.getElem?_eq_none
    rw [genSchedule, scheduleLoop_length, List.length_replicate]
    exact hi

/-- Witness for C7 with `loops = 3`, base 21, quiet period 2 and constant
draws `(240, 50)`: the schedule has length 3 and index 1 still holds the
base temperature. -/
theorem schedule_coverage_witness :
    (genSchedule (fun _ => (240, 50)) 3 21 2).length = 3 ∧
    (1 < 2 ∧ 1 < 3) ∧
    (genSchedule (fun _ => (240, 50)) 3 21 2)[1]? = some 21 :=
  ⟨(schedule_coverage (fun _ => (240, 50)) 3 21 2).1,
    ⟨by decide, by decide⟩,
    (schedule_coverage (fun _ => (240, 50)) 3 21 2).2.1 1 (by decide) (by decide)⟩

/-- C8, evaluated at the failing input of the notebook run: on the first tick
(`i = 0`, run length `loops = 5400`, first measurement `T1[0] = 25`), the
`pv_last` argument the loop passes to `pid` is `T1[-1]`, which by Python
negative indexing is the *last*, still zero-initialized slot of the `T1`
array — the value `0`, not the first measurement `25` the spec calls
for. -/
theorem firstTick_pv_last_is_zero_slot :
    pyGetPrev (firstTickT1 5400 25) 0 = 0 ∧ (0 : ℚ) ≠ 25 := by
  constructor
  · have hne : (0 : ℕ) ≠ 5399 := by omega
    have h : ((List.replicate 5400 (0 : ℚ)).set 0 25)[5399]? = some 0 := by
      rw [List.getElem?_set_ne hne]
      exact List.getElem?_replicate_of_lt (by omega)
    have hlen : ((List.replicate 5400 (0 : ℚ)).set 0 25).length - 1 = 5399 := by
      rw [List.length_set, List.length_replicate]
    unfold pyGetPrev firstTickT1
    rw [if_pos (rfl : (0 : ℕ) = 0), hlen, List.getD_eq_getElem?_getD, h]
    rfl
  · norm_num

lemma partAStep_congr (plant : ℕ → List ℚ → ℚ) (clock : ℕ → ℚ)
    (model₁ model₂ : List (ℚ × ℚ) → ℚ) (sxT sxE sy : Scaler)
    (Tsp : List ℚ) (window i : ℕ) (s₁ s₂ : SimStateA)
    (hT : s₁.T1 = s₂.T1) (hQ : s₁.Qpid = s₂.Qpid) (hH : s₁.heater = s₂.heater)
    (hI : s₁.ierr = s₂.ierr) (hP : s₁.prev_time = s₂.prev_time) :
    (partAStep plant clock model₁ sxT sxE sy Tsp window i s₁).T1 =
      (partAStep plant clock model₂ sxT sxE sy Tsp window i s₂).T1 ∧
    (partAStep plant clock model₁ sxT sxE sy Tsp window i s₁).Qpid =
      (partAStep plant clock model₂ sxT sxE sy Tsp window i s₂).Qpid ∧
    (partAStep plant clock model₁ sxT sxE sy Tsp window i s₁).heater =
      (partAStep plant clock model₂ sxT sxE sy Tsp window i s₂).heater ∧
    (partAStep plant clock model₁ sxT sxE sy Tsp window i s₁).ierr =
      (partAStep plant clock model₂ sxT sxE sy Tsp window i s₂).ierr ∧
    (partAStep plant clock model₁ sxT sxE sy Tsp window i s₁).prev_time =
      (partAStep plant clock model₂ sxT sxE sy Tsp window i s₂).prev_time := by
  obtain ⟨T1a, Qpa, Qla, ha, ia, pa⟩ := s₁
  obtain ⟨T1b, Qpb, Qlb, hb, ib, pb⟩ := s₂
  simp only at hT hQ hH hI hP
  subst hT hQ hH hI hP
  exact ⟨rfl, rfl, rfl, rfl, rfl⟩

lemma runPartA_model_irrelevant (plant : ℕ → List ℚ → ℚ) (clock : ℕ → ℚ)
    (model₁ model₂ : List (ℚ × ℚ) → ℚ) (sxT sxE sy : Scaler)
    (Tsp : List ℚ) (window loops : ℕ) :
    ∀ n,
      (runPartA plant clock model₁ sxT sxE sy Tsp window loops n).T1 =
        (runPartA plant clock model₂ sxT sxE sy Tsp window loops n).T1 ∧
      (runPartA plant clock model₁ sxT sxE sy Tsp window loops n).Qpid =
        (runPartA plant clock model₂ sxT sxE sy Tsp window loops n).Qpid ∧
      (runPartA plant clock model₁ sxT sxE sy Tsp window loops n).heater =
        (runPartA plant clock model₂ sxT sxE sy Tsp window loops n).heater ∧
      (runPartA plant clock model₁ sxT sxE sy Tsp window loops n).ierr =
        (runPartA plant clock model₂ sxT sxE sy Tsp window loops n).ierr ∧
      (runPartA plant clock model₁ sxT sxE sy Tsp window loops n).prev_time =
        (runPartA plant clock model₂ sxT sxE sy Tsp window loops n).prev_time := by
  intro n
  induction n with
  | zero => exact ⟨rfl, rfl, rfl, rfl, rfl⟩
  | succ n ih =>
    obtain ⟨h1, h2, h3, h4, h5⟩ := ih
    exact partAStep_congr plant clock model₁ model₂ sxT sxE sy Tsp window n
      (runPartA plant clock model₁ sxT sxE sy Tsp window loops n)
      (runPartA plant clock model₂ sxT sxE sy Tsp window loops n)
      h1 h2 h3 h4 h5

lemma runPartA_heater_eq_map (plant : ℕ → List ℚ → ℚ) (clock : ℕ → ℚ)
    (model : List (ℚ × ℚ) → ℚ) (sxT sxE sy : Scaler)
    (Tsp : List ℚ) (window loops : ℕ) :
    ∀ n,
      (runPartA plant clock model sxT sxE sy Tsp window loops n).heater =
        (List.range n).map
          (fun i => (runPartA plant clock model sxT sxE sy Tsp window loops n).Qpid.getD i 0) := by
  intro n
  induction n with
  | zero => rfl
  | succ n ih =>
    rw [List.range_succ, List.map_append]
    have hstab :
        (List.range n).map
          (fun i =>
            (runPartA plant clock model sxT sxE sy Tsp window loops (n + 1)).Qpid.getD i 0) =
        (List.range n).map
          (fun i =>
            (runPartA plant clock model sxT sxE sy Tsp window loops n).Qpid.getD i 0) := by
      apply List.map_congr_left
      intro i hi
      have hin : i < n := List.mem_range.mp hi
      simp only [runPartA, partAStep, List.getD_eq_getElem?_getD]
      rw [List.getElem?_set_ne (by omega)]
    rw [hstab, ← ih]
    simp only [runPartA, partAStep, List.map_cons, List.map_nil]

/-- C9: in the Part A comparison run the heater command written on tick `i`
is exactly the PID output `Qpid[i]` (the write happens before the sequence
model is consulted), so the heater command sequence is identical for any
two runs that differ only in the inference function of the model — the model
output never influences actuation in this mode. -/
theorem partA_actuation_is_pid_and_model_independent
    (plant : ℕ → List ℚ → ℚ) (clock : ℕ → ℚ)
    (model₁ model₂ : List (ℚ × ℚ) → ℚ) (sxT sxE sy : Scaler)
    (Tsp : List ℚ) (window loops n : ℕ) :
    (runPartA plant clock model₁ sxT sxE sy Tsp window loops n).heater =
      (List.range n).map
        (fun i => (runPartA plant clock model₁ sxT sxE sy Tsp window loops n).Qpid.getD i 0) ∧
    (runPartA plant clock model₁ sxT sxE sy Tsp window loops n).heater =
      (runPartA plant clock model₂ sxT sxE sy Tsp window loops n).heater :=
  ⟨runPartA_heater_eq_map plant clock model₁ sxT sxE sy Tsp window loops n,
    (runPartA_model_irrelevant plant clock model₁ model₂ sxT sxE sy Tsp window loops n).2.2.1⟩

lemma runPartB_inv (plant : ℕ → List ℚ → ℚ) (clock : ℕ → ℚ)
    (model : List (ℚ × ℚ) → ℚ) (sxT sxE sy : Scaler)
    (Tsp : List ℚ) (window : ℕ) (t0 q0 : List ℚ)
    (hq : ∀ j, j < window → q0.getD j 0 = 0) :
    ∀ n,
      (runPartB plant clock model sxT sxE sy Tsp window t0 q0 n).heater.length = n ∧
      (∀ j, j < window →
        (runPartB plant clock model sxT sxE sy Tsp window t0 q0 n).Qlstm.getD j 0 = 0) ∧
      (∀ i, i < n → i < window →
        (runPartB plant clock model sxT sxE sy Tsp window t0 q0 n).heater.getD i 0 = 0) := by
  intro n
  induction n with
  | zero => exact ⟨rfl, hq, fun i hi _ => absurd hi (Nat.not_lt_zero i)⟩
  | succ n ih =>
    obtain ⟨hlen, hql, hht⟩ := ih
    refine ⟨?_, ?_, ?_⟩
    · simp only [runPartB, partBStep, List.length_append, List.length_cons,
        List.length_nil, hlen]
    · intro j hj
      simp only [runPartB, partBStep]
      split
      · rename_i hge
        rw [List.getD_eq_getElem?_getD, List.getElem?_set_ne (by omega),
          ← List.getD_eq_getElem?_getD]
        exact hql j hj
      · exact hql j hj
    · intro i hi hiw
      rcases Nat.lt_succ_iff_lt_or_eq.mp hi with hlt | heq
      · simp only [runPartB, partBStep, List.getD_eq_getElem?_getD]
        rw [List.getElem?_append_left (by rw [hlen]; exact hlt),
          ← List.getD_eq_getElem?_getD]
        exact hht i hlt hiw
      · subst heq
        have hnw : ¬ i ≥ window := by omega
        simp only [runPartB, partBStep, if_neg hnw]
        have hcat :
            ((runPartB plant clock model sxT sxE sy Tsp window t0 q0 i).heater ++
              [(runPartB plant clock model sxT sxE sy Tsp window t0 q0 i).Qlstm.getD i 0])[i]? =
            some ((runPartB plant clock model sxT sxE sy Tsp window t0 q0 i).Qlstm.getD i 0) := by
          have := List.getElem?_concat_length
            (runPartB plant clock model sxT sxE sy Tsp window t0 q0 i).heater
            ((runPartB plant clock model sxT sxE sy Tsp window t0 q0 i).Qlstm.getD i 0)
          rwa [hlen] at this
        rw [List.getD_eq_getElem?_getD, hcat, Option.getD_some]
        exact hql i hiw

/-- C10: in the Part B (LSTM-only) run, every tick `i < window` raises no
exception: the loop skips the model call and commands the heater with
`Qlstm[i]`, whose value is still the initial `0.0` of the array (`np.zeros`,
untouched below `window` by the preceding Part A run), so the actuator
receives zero power on each of the first `window` ticks. -/
theorem partB_heater_zero_before_ready (plant : ℕ → List ℚ → ℚ)
    (clock : ℕ → ℚ) (model : List (ℚ × ℚ) → ℚ) (sxT sxE sy : Scaler)
    (Tsp : List ℚ) (window : ℕ) (t0 q0 : List ℚ) (n i : ℕ)
    (hq : ∀ j, j < window → q0.getD j 0 = 0) (hiw : i < window) (hin : i < n) :
    (runPartB plant clock model sxT sxE sy Tsp window t0 q0 n).heater.getD i 0 = 0 :=
  (runPartB_inv plant clock model sxT sxE sy Tsp window t0 q0 hq n).2.2 i hin hiw

/-- Witness for C10: a 3-tick Part B run with `window = 15` and the
carried-over `Qlstm` array all zero commands zero heater power on tick 2. -/
theorem partB_heater_zero_before_ready_witness :
    (∀ j, j < 15 → (List.replicate 20 (0 : ℚ)).getD j 0 = 0) ∧ 2 < 15 ∧ 2 < 3 ∧
    (runPartB (fun _ _ => 25) (fun i => i) (fun _ => 3) ⟨0, 1⟩ ⟨0, 1⟩ ⟨0, 100⟩
      (List.replicate 20 23) 15 (List.replicate 20 21) (List.replicate 20 0) 3).heater.getD 2 0 = 0 := by
  have hq : ∀ j, j < 15 → (List.replicate 20 (0 : ℚ)).getD j 0 = 0 := by
    intro j _
    rw [List.getD_eq_getElem?_getD, List.getElem?_replicate]
    split <;> rfl
  exact ⟨hq, by decide, by decide,
    partB_heater_zero_before_ready (fun _ _ => 25) (fun i => i) (fun _ => 3)
      ⟨0, 1⟩ ⟨0, 1⟩ ⟨0, 100⟩ (List.replicate 20 23) 15
      (List.replicate 20 21) (List.replicate 20 0) 3 2 hq (by decide) (by decide)⟩

end TempControl
